import Mathlib

/-
Verification of the XcodeBuildMCP doctor dependency adapters
(`src/mcp/tools/doctor/lib/doctor.deps.ts`) and the plist mutation tool
(`set_plist_value.ts`).

The TypeScript sources are shallowly embedded:
  * JavaScript strings are Lean `String`s.  JavaScript string primitives
    (`trim`, `toLowerCase`, `includes`, `startsWith`, `split`) are modelled
    as executable functions over the underlying character lists
    (`jsTrim`, `jsToLower`, `strIncludes`, `strStartsWith`, `splitOnChar`);
    `toLowerCase` is modelled on its ASCII fragment, which covers every
    string the code compares after lowercasing.
  * A `CommandExecutor` is a function from the call index and the argv
    vector to `Except String CmdResult`; `Except.error` models a rejected
    promise (a thrown executor).  A `try`/`catch` in the source becomes an
    explicit `match` on that `Except`; an un-caught `await` propagates the
    `.error` to the caller.
  * Each embedded operation additionally returns the list of external
    commands it issued (the argv vectors handed to the executor), so frame
    conditions ("zero commands executed", "read/set/read sequence") are
    statable.
-/

/-! ## JavaScript string primitives -/

/-- The WhiteSpace / LineTerminator set used by JavaScript `String.prototype.trim`. -/
def isJsWhitespace (c : Char) : Bool :=
  decide ((9 ≤ c.toNat ∧ c.toNat ≤ 13) ∨ c.toNat = 32 ∨ c.toNat = 160 ∨ c.toNat = 5760 ∨
    (8192 ≤ c.toNat ∧ c.toNat ≤ 8202) ∨ c.toNat = 8232 ∨ c.toNat = 8233 ∨
    c.toNat = 8239 ∨ c.toNat = 8287 ∨ c.toNat = 12288 ∨ c.toNat = 65279)

/-- Drop leading and trailing JavaScript whitespace from a character list. -/
def jsTrimList (cs : List Char) : List Char :=
  ((cs.dropWhile isJsWhitespace).reverse.dropWhile isJsWhitespace).reverse

/-- Model of JavaScript `String.prototype.trim`. -/
def jsTrim (s : String) : String :=
  String.mk (jsTrimList s.data)

/-- ASCII fragment of JavaScript `String.prototype.toLowerCase` (one character). -/
def jsLowerChar (c : Char) : Char :=
  if 65 ≤ c.toNat ∧ c.toNat ≤ 90 then Char.ofNat (c.toNat + 32) else c

/-- ASCII fragment of JavaScript `String.prototype.toLowerCase`. -/
def jsToLower (s : String) : String :=
  String.mk (s.data.map jsLowerChar)

/-- Does `l` contain `pat` as a contiguous segment? -/
def listContainsSeg (pat : List Char) : List Char → Bool
  | [] => pat.isEmpty
  | c :: tail => pat.isPrefixOf (c :: tail) || listContainsSeg pat tail

/-- Model of JavaScript `String.prototype.includes`. -/
def strIncludes (s pat : String) : Bool :=
  listContainsSeg pat.data s.data

/-- Model of JavaScript `String.prototype.startsWith`. -/
def strStartsWith (s p : String) : Bool :=
  p.data.isPrefixOf s.data

/-- Model of JavaScript `String.prototype.split` with a one-character separator. -/
def splitOnChar (sep : Char) : List Char → List (List Char)
  | [] => [[]]
  | c :: rest =>
    if c = sep then
      [] :: splitOnChar sep rest
    else
      match splitOnChar sep rest with
      | [] => [[c]]
      | h :: t => (c :: h) :: t

/-- Model of JavaScript `Array.prototype.join` with a separator. -/
def joinWithSep (sep : String) : List String → String
  | [] => ""
  | [s] => s
  | s :: rest => s ++ sep ++ joinWithSep sep rest

/-- Digit list to natural number (for integer and exponent literals). -/
def digitsToNat (cs : List Char) : Nat :=
  cs.foldl (fun a c => a * 10 + (c.toNat - 48)) 0

/-! ## Command executor model -/

/-- Result object returned by a command executor (`{success, output, error?}`). -/
structure CmdResult where
  success : Bool
  output : String
  error : Option String
deriving DecidableEq

/-- A command executor: call index and argv vector to a result, where
`Except.error` models a rejected promise (the executor threw). -/
abbrev CommandExecutor := Nat → List String → Except String CmdResult

/-! ## set_plist_value: validation and escaping helpers -/

/-- The `valueType` enumeration of the plist tool. -/
inductive PlistValueType where
  | string
  | bool
  | int
  | real
deriving DecidableEq

/-- The literal spelling of a `PlistValueType` (used in the `Add` command). -/
def plistValueTypeName : PlistValueType → String
  | .string => "string"
  | .bool => "bool"
  | .int => "int"
  | .real => "real"

/-- Classification of a failed `Set` command (`classifySetFailure`). -/
inductive SetFailureClassification where
  | missingKey
  | nonMissing
  | unknown
deriving DecidableEq

/-- `classifySetFailure` from `set_plist_value.ts`. -/
def classifySetFailure (errorOrOutput : String) : SetFailureClassification :=
  let normalized := jsToLower errorOrOutput
  if strIncludes normalized "does not exist" || strIncludes normalized "unknown entry" ||
      strIncludes normalized "missing key" then
    .missingKey
  else if strIncludes normalized "type mismatch" || strIncludes normalized "cannot parse" ||
      strIncludes normalized "malformed" || strIncludes normalized "invalid" then
    .nonMissing
  else
    .unknown

/-- `getCommandErrorText` from `set_plist_value.ts`. -/
def getCommandErrorText (output : String) (error : Option String) : String :=
  let fromError := match error with
    | some e => jsTrim e
    | none => ""
  if fromError.data.isEmpty = false then fromError
  else
    let fromOutput := jsTrim output
    if fromOutput.data.isEmpty = false then fromOutput
    else "Unknown error"

/-- `normalizeDisplayedValue` from `set_plist_value.ts`. -/
def normalizeDisplayedValue (value : String) (valueType : PlistValueType) : String :=
  match valueType with
  | .string => value
  | _ => jsTrim value

/-- `parseKeyPathSegments` main loop: characters, accumulated segments, current
segment, and the escaping flag. -/
def parseKeyPathAux : List Char → List String → String → Bool → Except String (List String)
  | [], _, _, true => .error "Key path ends with an unfinished escape sequence."
  | [], segs, cur, false =>
    let normalizedSegment := jsTrim cur
    if normalizedSegment.data.isEmpty then .error "Key path contains an empty segment."
    else .ok (segs ++ [normalizedSegment])
  | c :: rest, segs, cur, true => parseKeyPathAux rest segs (cur.push c) false
  | c :: rest, segs, cur, false =>
    if c = '\\' then parseKeyPathAux rest segs cur true
    else if c = ':' then
      let normalizedSegment := jsTrim cur
      if normalizedSegment.data.isEmpty then .error "Key path contains an empty segment."
      else parseKeyPathAux rest (segs ++ [normalizedSegment]) "" false
    else parseKeyPathAux rest segs (cur.push c) false

/-- `parseKeyPathSegments` from `set_plist_value.ts`. -/
def parseKeyPathSegments (keyPath : String) : Except String (List String) :=
  parseKeyPathAux keyPath.data [] "" false

/-- Replace every occurrence of one character by a string
(JavaScript `replaceAll` with a one-character pattern). -/
def replaceAllChar (s : String) (target : Char) (replacement : String) : String :=
  String.mk (s.data.map (fun c => if c = target then replacement.data else [c])).flatten

/-- `escapeKeySegmentForPlistBuddy` from `set_plist_value.ts`. -/
def escapeKeySegmentForPlistBuddy (segment : String) : String :=
  replaceAllChar (replaceAllChar segment '\\' "\\\\") ':' "\\:"

/-- `normalizeKeyPathForPlistBuddy` from `set_plist_value.ts`: the parsed
segments together with the re-escaped PlistBuddy key path. -/
def normalizeKeyPathForPlistBuddy (keyPath : String) : Except String (List String × String) :=
  match parseKeyPathSegments keyPath with
  | .error e => .error e
  | .ok segments =>
    .ok (segments, ":" ++ joinWithSep ":" (segments.map escapeKeySegmentForPlistBuddy))

/-- `quotePlistBuddyString` from `set_plist_value.ts`. -/
def quotePlistBuddyString (value : String) : String :=
  let escaped := value.data.foldl (fun acc c =>
    if c = '\\' then acc ++ "\\\\"
    else if c = '"' then acc ++ "\\\""
    else if c = '\n' then acc ++ "\\n"
    else if c = '\r' then acc ++ "\\r"
    else if c = '\t' then acc ++ "\\t"
    else acc.push c) ""
  "\"" ++ escaped ++ "\""

/-- Is the (sign-stripped) character list a JavaScript integer literal
(`^[+-]?\d+$` body)? -/
def intLiteralOk (cs : List Char) : Bool :=
  let ds := match cs with
    | c :: rest => if c = '+' ∨ c = '-' then rest else cs
    | [] => cs
  !ds.isEmpty && ds.all Char.isDigit

/-- Parse a real literal per the tool's regex
`^[+-]?(?:\d+\.\d*|\d*\.\d+|\d+)(?:[eE][+-]?\d+)?$`, returning the mantissa
digits as a natural number, the number of fraction digits, and the exponent. -/
def parseRealLiteral (cs : List Char) : Option (Nat × Nat × Int) :=
  let body := match cs with
    | c :: rest => if c = '+' ∨ c = '-' then rest else cs
    | [] => cs
  let mantissa := body.takeWhile (fun c => !(c = 'e' ∨ c = 'E'))
  let expChunk := body.dropWhile (fun c => !(c = 'e' ∨ c = 'E'))
  let expOpt : Option Int :=
    match expChunk with
    | [] => some 0
    | _ :: expPart =>
      match expPart with
      | [] => none
      | c :: ds =>
        let signedDigits : Bool × List Char :=
          if c = '-' then (true, ds) else if c = '+' then (false, ds) else (false, c :: ds)
        if !signedDigits.2.isEmpty && signedDigits.2.all Char.isDigit then
          some (if signedDigits.1 then -(Int.ofNat (digitsToNat signedDigits.2))
                else Int.ofNat (digitsToNat signedDigits.2))
        else none
  match expOpt with
  | none => none
  | some e =>
    let intPart := mantissa.takeWhile (fun c => c ≠ '.')
    let dotRest := mantissa.dropWhile (fun c => c ≠ '.')
    match dotRest with
    | [] =>
      if !intPart.isEmpty && intPart.all Char.isDigit then
        some (digitsToNat intPart, 0, e)
      else none
    | _ :: fracPart =>
      if (!intPart.isEmpty || !fracPart.isEmpty) && intPart.all Char.isDigit &&
          fracPart.all Char.isDigit then
        some (digitsToNat (intPart ++ fracPart), fracPart.length, e)
      else none

/-- Magnitudes at least `2^1024 - 2^970` round to infinity in IEEE 754
binary64, so `Number.isFinite(Number(s))` holds for a regex-conforming real
literal exactly when its exact value is below this threshold. -/
def doubleOverflowThreshold : Nat := 2 ^ 1024 - 2 ^ 970

/-- Exact model of `Number.isFinite(Number(s))` for a literal
`m * 10^(e - fracLen)` that already matches the real regex. -/
def realLiteralIsFiniteDouble (m : Nat) (fracLen : Nat) (e : Int) : Bool :=
  let shift : Int := e - Int.ofNat fracLen
  if 0 ≤ shift then
    decide (m * 10 ^ shift.toNat < doubleOverflowThreshold)
  else
    decide (m < doubleOverflowThreshold * 10 ^ (-shift).toNat)

/-- `validateValueForType` from `set_plist_value.ts`: `none` means valid,
`some e` is the validation error message. -/
def validateValueForType (value : String) (valueType : PlistValueType) : Option String :=
  match valueType with
  | .bool =>
    let normalized := jsToLower (jsTrim value)
    if normalized = "true" ∨ normalized = "false" then none
    else some "Boolean values must be true or false."
  | .int =>
    let normalized := jsTrim value
    if intLiteralOk normalized.data then none
    else some "Integer values must use whole-number format (for example: -1, 0, 42)."
  | .real =>
    let normalized := jsTrim value
    match parseRealLiteral normalized.data with
    | none => some "Real values must use finite decimal or scientific format (for example: 1.0, -0.5, 1e3)."
    | some (m, fracLen, e) =>
      if realLiteralIsFiniteDouble m fracLen e then none
      else some "Real values must use finite decimal or scientific format (for example: 1.0, -0.5, 1e3)."
  | .string => none

/-- The `{normalizedValue, commandValue}` payload of `normalizeValueForType`. -/
structure NormalizedValue where
  normalizedValue : String
  commandValue : String
deriving DecidableEq

/-- `normalizeValueForType` from `set_plist_value.ts`. -/
def normalizeValueForType (value : String) (valueType : PlistValueType) :
    Except String NormalizedValue :=
  match validateValueForType value valueType with
  | some e => .error e
  | none =>
    match valueType with
    | .bool =>
      let normalized := jsToLower (jsTrim value)
      .ok ⟨normalized, normalized⟩
    | .int => .ok ⟨jsTrim value, jsTrim value⟩
    | .real => .ok ⟨jsTrim value, jsTrim value⟩
    | .string => .ok ⟨value, quotePlistBuddyString value⟩

/-! ## set_plist_value: tool logic -/

/-- The validated parameter object of the plist tool. -/
structure SetPlistValueParams where
  plistPath : String
  keyPath : String
  value : String
  valueType : PlistValueType
  createIfMissing : Bool
deriving DecidableEq

/-- The tool response: the single text content item and the error flag. -/
structure ToolResponse where
  text : String
  isError : Bool
deriving DecidableEq

/-- Modelled from the spec: `createErrorResponse` lives in `utils/responses`,
outside the audited source files.  Per the spec ("returns a structured error
object") and the tool's tests, the response carries `isError = true` and a
text containing both the message and the details. -/
def createErrorResponse (message details : String) : ToolResponse :=
  ⟨message ++ "\n" ++ details, true⟩

/-- The argv vector built by `runPlistBuddyCommand`. -/
def runPlistBuddyArgs (plistCommand plistPath : String) : List String :=
  ["/usr/libexec/PlistBuddy", "-c", plistCommand, plistPath]

/-- The tail of `set_plist_valueLogic` after a successful `Set` or `Add`:
issue the verification read and build the final response.  `callIndex` is the
index of this executor call; `issued` is the list of commands issued so far. -/
def setPlistVerifyStep (params : SetPlistValueParams) (executor : CommandExecutor)
    (plistBuddyKeyPath : String) (previousValue : Option String) (callIndex : Nat)
    (issued : List (List String)) : Except String ToolResponse × List (List String) :=
  let printCmd := runPlistBuddyArgs ("Print " ++ plistBuddyKeyPath) params.plistPath
  match executor callIndex printCmd with
  | .error ex => (.error ex, issued ++ [printCmd])
  | .ok verifyResult =>
    if verifyResult.success = false then
      (.ok (createErrorResponse "Failed to verify plist write"
        ("verify_error: " ++ getCommandErrorText verifyResult.output verifyResult.error)),
       issued ++ [printCmd])
    else
      let finalValue := normalizeDisplayedValue verifyResult.output params.valueType
      let previousValueText := match previousValue with
        | some pv => " Previous value: " ++ pv ++ "."
        | none => ""
      (.ok ⟨"Set plist key '" ++ params.keyPath ++ "' in '" ++ params.plistPath ++
        "' to '" ++ finalValue ++ "'." ++ previousValueText, false⟩,
       issued ++ [printCmd])

/-- The read → set → (fallback add) → verify phase of `set_plist_valueLogic`,
entered once every pre-flight validation has passed. -/
def setPlistMutationPhase (params : SetPlistValueParams) (executor : CommandExecutor)
    (plistBuddyKeyPath : String) (normalizedValueResult : NormalizedValue) :
    Except String ToolResponse × List (List String) :=
  let printCmd := runPlistBuddyArgs ("Print " ++ plistBuddyKeyPath) params.plistPath
  let previousValue : Option String :=
    match executor 0 printCmd with
    | .error _ => none
    | .ok r =>
      if r.success then some (normalizeDisplayedValue r.output params.valueType) else none
  let setCmd := runPlistBuddyArgs
    ("Set " ++ plistBuddyKeyPath ++ " " ++ normalizedValueResult.commandValue)
    params.plistPath
  match executor 1 setCmd with
  | .error ex => (.error ex, [printCmd, setCmd])
  | .ok setResult =>
    if setResult.success then
      setPlistVerifyStep params executor plistBuddyKeyPath previousValue 2
        [printCmd, setCmd]
    else
      let setErrorText := getCommandErrorText setResult.output setResult.error
      let setFailureType := classifySetFailure setErrorText
      if params.createIfMissing = false then
        (.ok (createErrorResponse "Failed to set plist value"
          ("set_error: " ++ setErrorText)), [printCmd, setCmd])
      else if setFailureType = .nonMissing then
        (.ok (createErrorResponse "Failed to set plist value"
          ("set_error: " ++ setErrorText)), [printCmd, setCmd])
      else
        let addCmd := runPlistBuddyArgs
          ("Add " ++ plistBuddyKeyPath ++ " " ++ plistValueTypeName params.valueType ++
            " " ++ normalizedValueResult.commandValue)
          params.plistPath
        match executor 2 addCmd with
        | .error ex => (.error ex, [printCmd, setCmd, addCmd])
        | .ok addResult =>
          if addResult.success = false then
            let addErrorText := getCommandErrorText addResult.output addResult.error
            (.ok (createErrorResponse "Failed to set plist value"
              ("set_error: " ++ setErrorText ++ "\n" ++ "add_error: " ++ addErrorText)),
             [printCmd, setCmd, addCmd])
          else
            setPlistVerifyStep params executor plistBuddyKeyPath previousValue 3
              [printCmd, setCmd, addCmd]

/-- `set_plist_valueLogic` from `set_plist_value.ts`.  Returns the response
(`Except.error` when an executor exception propagates past the tool) together
with the list of external commands issued.  The initial read is wrapped in the
source's `try`/`catch` (best effort); the `Set`, `Add` and verification calls
are not wrapped, so their exceptions propagate. -/
def set_plist_valueLogic (params : SetPlistValueParams) (executor : CommandExecutor)
    (existsSync : String → Bool) : Except String ToolResponse × List (List String) :=
  if existsSync params.plistPath = false then
    (.ok (createErrorResponse "Plist file not found"
      ("No file exists at '" ++ params.plistPath ++ "'.")), [])
  else
    match normalizeKeyPathForPlistBuddy params.keyPath with
    | .error e =>
      (.ok (createErrorResponse "Parameter validation failed"
        ("Invalid parameters:\nkeyPath: " ++ e)), [])
    | .ok normalizedKeyPath =>
      match normalizeValueForType params.value params.valueType with
      | .error e => (.ok (createErrorResponse "Parameter validation failed" e), [])
      | .ok normalizedValueResult =>
        setPlistMutationPhase params executor normalizedKeyPath.2 normalizedValueResult

/-! ## Doctor dependency adapters (`doctor.deps.ts`) -/

/-- The ambient collaborators of `createDoctorDependencies` that are not the
injected executor: the resolved AXe binary path (`resolveAxeBinary()`), the
read-only xcodemake probe (`isXcodemakeBinaryAvailable()`), and the manifest
loader (`loadManifest()`, which may throw). -/
structure DoctorWorld where
  axeBinaryPath : Option String
  xcodemakeBinaryAvailable : Bool
  loadManifest : Except String (List (String × List String))

/-- One observable operation performed by `checkBinaryAvailability`.  The
install-capable xcodemake probe (`isXcodemakeAvailable`, which may download
the binary) is listed so its absence from every trace is statable. -/
inductive ProbeCall where
  | execCommand (argv : List String)
  | resolveAxeCall
  | xcodemakeReadOnlyCheck
  | xcodemakeInstallCapableCheck
deriving DecidableEq

/-- The `{available, version?}` payload of `checkBinaryAvailability`. -/
structure BinaryAvailability where
  available : Bool
  version : Option String
deriving DecidableEq

/-- `createDoctorDependencies(...).binaryChecker.checkBinaryAvailability`,
returning the payload together with the trace of operations performed.
Every executor call in the source sits inside a `try`/`catch`, modelled by
the explicit matches on the executor's `Except` result. -/
def checkBinaryAvailability (w : DoctorWorld) (executor : CommandExecutor)
    (binary : String) : Except String (BinaryAvailability × List ProbeCall) :=
  if binary = "axe" then
    match w.axeBinaryPath with
    | none => .ok (⟨false, none⟩, [.resolveAxeCall])
    | some path =>
      let version : Option String :=
        match executor 0 [path, "--version"] with
        | .error _ => none
        | .ok res =>
          if res.success ∧ res.output.data.isEmpty = false then some (jsTrim res.output)
          else none
      .ok (⟨true, some (version.getD "Available (version info not available)")⟩,
        [.resolveAxeCall, .execCommand [path, "--version"]])
  else if binary = "xcodemake" then
    .ok (⟨w.xcodemakeBinaryAvailable,
      if w.xcodemakeBinaryAvailable then some "Available (version info not available)"
      else none⟩, [.xcodemakeReadOnlyCheck])
  else
    match executor 0 ["which", binary] with
    | .error _ => .ok (⟨false, none⟩, [.execCommand ["which", binary]])
    | .ok which =>
      if which.success = false then .ok (⟨false, none⟩, [.execCommand ["which", binary]])
      else if binary = "mise" then
        let version : Option String :=
          match executor 1 ["mise", "--version"] with
          | .error _ => none
          | .ok res =>
            if res.success ∧ res.output.data.isEmpty = false then some (jsTrim res.output)
            else none
        .ok (⟨true, some (version.getD "Available (version info not available)")⟩,
          [.execCommand ["which", binary], .execCommand ["mise", "--version"]])
      else
        .ok (⟨true, some "Available (version info not available)"⟩,
          [.execCommand ["which", binary]])

/-- The union result type of `getXcodeInfo`. -/
inductive XcodeInfo where
  | info (version path selectedXcode xcrunVersion : String)
  | failure (message : String)
deriving DecidableEq

/-- `output.trim().split('\n').slice(0, 2).join(' - ')`. -/
def firstTwoLinesJoined (s : String) : String :=
  joinWithSep " - " (((splitOnChar '\n' (jsTrim s).data).take 2).map String.mk)

/-- `createDoctorDependencies(...).xcode.getXcodeInfo`.  The whole body sits
inside one `try`/`catch`, so an executor exception or an internal `throw`
becomes the `{error}` variant (here `failure`) rather than propagating. -/
def getXcodeInfo (executor : CommandExecutor) : XcodeInfo :=
  match executor 0 ["xcodebuild", "-version"] with
  | .error e => .failure e
  | .ok xcodebuild =>
    if xcodebuild.success = false then .failure "xcodebuild command failed"
    else
      let version := firstTwoLinesJoined xcodebuild.output
      match executor 1 ["xcode-select", "-p"] with
      | .error e => .failure e
      | .ok pathRes =>
        if pathRes.success = false then .failure "xcode-select command failed"
        else
          match executor 2 ["xcrun", "--find", "xcodebuild"] with
          | .error e => .failure e
          | .ok selected =>
            if selected.success = false then .failure "xcrun --find command failed"
            else
              match executor 3 ["xcrun", "--version"] with
              | .error e => .failure e
              | .ok xcrun =>
                if xcrun.success = false then .failure "xcrun --version command failed"
                else .info version (jsTrim pathRes.output) (jsTrim selected.output)
                  (jsTrim xcrun.output)

/-- The union result type of `getManifestToolInfo`. -/
inductive ManifestToolInfo where
  | info (totalTools workflowCount : Nat) (toolsByWorkflow : List (String × Nat))
  | failure (message : String)
deriving DecidableEq

/-- `createDoctorDependencies(...).manifest.getManifestToolInfo`.  The body
sits inside one `try`/`catch`; a throwing `loadManifest` becomes the error
variant.  A manifest is a list of `(workflowId, tool ids)` pairs. -/
def getManifestToolInfo (w : DoctorWorld) : ManifestToolInfo :=
  match w.loadManifest with
  | .error e => .failure ("Failed to load manifest: " ++ e)
  | .ok workflows =>
    let toolsByWorkflow := workflows.map (fun wf => (wf.1, wf.2.length))
    let uniqueTools := (workflows.map Prod.snd).flatten.eraseDups
    .info uniqueTools.length workflows.length toolsByWorkflow

/-- The fixed "always shown" environment variable names of
`createDoctorDependencies(...).env.getEnvironmentVariables`. -/
def relevantVars : List String :=
  ["INCREMENTAL_BUILDS_ENABLED", "PATH", "DEVELOPER_DIR", "HOME", "USER", "TMPDIR",
   "NODE_ENV", "SENTRY_DISABLED", "AXE_PATH", "XBMCP_LAUNCH_JSON_WAIT_MS",
   "XCODEBUILDMCP_DEBUGGER_BACKEND", "XCODEBUILDMCP_UI_DEBUGGER_GUARD_MODE"]

/-- A JavaScript record of environment variables: `some v` when the key is
present in the record (its value `v` may itself be `undefined`, i.e. `none`),
`none` when the key is absent. -/
abbrev EnvRecord := String → Option (Option String)

/-- Record assignment `record[key] = v`. -/
def envSet (m : EnvRecord) (key : String) (v : Option String) : EnvRecord :=
  fun k => if k = key then some v else m k

/-- `createDoctorDependencies(...).env.getEnvironmentVariables`.  The process
environment is an association list of defined variables (`Object.keys` order). -/
def getEnvironmentVariables (processEnv : List (String × String)) : EnvRecord :=
  let base := relevantVars.foldl
    (fun m varName => envSet m varName (List.lookup varName processEnv))
    (fun _ => none)
  (processEnv.map Prod.fst).foldl
    (fun m key =>
      if strStartsWith key "XCODEBUILDMCP_" then envSet m key (List.lookup key processEnv)
      else m)
    base

/-! ## Further definitions used by the statements -/

/-- Does the result carry a value (`true`) rather than a propagated exception? -/
def exceptIsOk : Except String α → Bool
  | .ok _ => true
  | .error _ => false

/-- One step of the parser's escaping flag. -/
def escStep (esc : Bool) (c : Char) : Bool :=
  if esc then false else decide (c = '\\')

/-- Does the key path end in an unfinished (unescaped trailing) backslash?
This is the final value of the parser's escaping flag. -/
def endsInOpenEscape (kp : String) : Bool :=
  kp.data.foldl escStep false

/-- Spec-side description of the string-value escaping: each of backslash,
double quote, newline, carriage return and tab is replaced by its backslash
escape, every other character is kept. -/
def escPlistChar (c : Char) : String :=
  if c = '\\' then "\\\\"
  else if c = '"' then "\\\""
  else if c = '\n' then "\\n"
  else if c = '\r' then "\\r"
  else if c = '\t' then "\\t"
  else String.mk [c]

/-- Spec-side description of the escaped body of a quoted string value. -/
def escapeStringValueSpec : List Char → String
  | [] => ""
  | c :: rest => escPlistChar c ++ escapeStringValueSpec rest

/-- An executor that succeeds on the initial read and then throws
(a rejected promise) on every later call. -/
def throwingSetExec : CommandExecutor := fun i _ =>
  if i = 0 then .ok ⟨true, "Old Name", none⟩ else .error "executor exception"

/-- An executor that always returns a successful result. -/
def alwaysOkExec : CommandExecutor := fun _ _ => .ok ⟨true, "ok", none⟩

/-- The executor of the tests' non-missing scenario: the read of `Count`
succeeds with `12`, the `Set` fails with a type-mismatch message. -/
def execTypeMismatch : CommandExecutor := fun i _ =>
  if i = 0 then .ok ⟨true, "12", none⟩
  else .ok ⟨false, "", some "Type mismatch while setting value"⟩

/-- The executor of the tests' overwrite scenario: read `Old Name`,
set succeeds, verification read returns `New Name`. -/
def execRoundTrip : CommandExecutor := fun i _ =>
  if i = 0 then .ok ⟨true, "Old Name", none⟩
  else if i = 1 then .ok ⟨true, "", none⟩
  else .ok ⟨true, "New Name", none⟩

/-- An executor whose `Set` succeeds but whose verification read fails. -/
def execVerifyFail : CommandExecutor := fun i _ =>
  if i = 0 then .ok ⟨true, "Old Name", none⟩
  else if i = 1 then .ok ⟨true, "", none⟩
  else .ok ⟨false, "", some "read failed"⟩

deriving instance DecidableEq for Except

/-! ## Helper lemmas: strings and trimming -/

theorem dropWhile_head_false (p : Char → Bool) :
    ∀ (l : List Char) {c : Char} {rest : List Char}, l.dropWhile p = c :: rest → p c = false := by
  intro l
  induction l with
  | nil => intro c rest h; simp [List.dropWhile] at h
  | cons a t ih =>
    intro c rest h
    rw [List.dropWhile_cons] at h
    by_cases hp : p a = true
    · rw [if_pos hp] at h; exact ih h
    · rw [if_neg hp] at h
      cases h
      simpa using hp

theorem dropWhile_dropWhile (p : Char → Bool) (l : List Char) :
    (l.dropWhile p).dropWhile p = l.dropWhile p := by
  cases h : l.dropWhile p with
  | nil => simp
  | cons c rest =>
    have hc := dropWhile_head_false p l h
    rw [List.dropWhile_cons, if_neg (by simp [hc])]

theorem jsTrimList_idem (cs : List Char) : jsTrimList (jsTrimList cs) = jsTrimList cs := by
  unfold jsTrimList
  set p := isJsWhitespace with hp
  set A := cs.dropWhile p with hA
  set B := A.reverse.dropWhile p with hB
  have hstep1 : B.reverse.dropWhile p = B.reverse := by
    cases hR : B.reverse with
    | nil => simp
    | cons c R' =>
      have hpre : B.reverse <+: A := by
        have hsuf : B <:+ A.reverse := by rw [hB]; exact List.dropWhile_suffix p
        have := List.reverse_prefix.mpr hsuf
        rwa [List.reverse_reverse] at this
      obtain ⟨t, ht⟩ := hpre
      rw [hR] at ht
      have hAc : cs.dropWhile p = c :: (R' ++ t) := by rw [← hA, ← ht]; rfl
      have hc := dropWhile_head_false p cs hAc
      rw [List.dropWhile_cons, if_neg (by simp [hc])]
  rw [hstep1, List.reverse_reverse]
  have hBB : B.dropWhile p = B := by rw [hB]; exact dropWhile_dropWhile p A.reverse
  rw [hBB]

theorem jsTrim_idem (s : String) : jsTrim (jsTrim s) = jsTrim s := by
  unfold jsTrim
  simp [jsTrimList_idem]

theorem isPrefixOf_append_self (p t : List Char) : p.isPrefixOf (p ++ t) = true := by
  induction p with
  | nil => simp [List.isPrefixOf]
  | cons c cs ih => simp [List.isPrefixOf, ih]

theorem listContainsSeg_of_isPrefixOf (pat l : List Char) (h : pat.isPrefixOf l = true) :
    listContainsSeg pat l = true := by
  cases l with
  | nil =>
    cases pat with
    | nil => rfl
    | cons c cs => simp [List.isPrefixOf] at h
  | cons x xs => simp [listContainsSeg, h]

theorem listContainsSeg_append (a p b : List Char) :
    listContainsSeg p (a ++ p ++ b) = true := by
  induction a with
  | nil =>
    show listContainsSeg p (p ++ b) = true
    exact listContainsSeg_of_isPrefixOf p (p ++ b) (isPrefixOf_append_self p b)
  | cons x xs ih =>
    show listContainsSeg p (x :: (xs ++ p ++ b)) = true
    simp only [listContainsSeg]
    rw [ih, Bool.or_true]

theorem strIncludes_of_data (s p : String) (pre post : List Char)
    (h : s.data = pre ++ p.data ++ post) : strIncludes s p = true := by
  unfold strIncludes
  rw [h]
  exact listContainsSeg_append pre p.data post

theorem strAppend_push (s : String) (c : Char) : s.push c = s ++ String.mk [c] := by
  cases s; rfl

/-! ## Helper lemmas: key-path parser -/

theorem parseKeyPathAux_ok_inv :
    ∀ (cs : List Char) (segs : List String) (cur : String) (esc : Bool)
      (out : List String),
      parseKeyPathAux cs segs cur esc = .ok out →
      (∀ s ∈ segs, jsTrim s = s ∧ s.data ≠ []) →
      ∀ s ∈ out, jsTrim s = s ∧ s.data ≠ [] := by
  intro cs
  induction cs with
  | nil =>
    intro segs cur esc out h hsegs
    cases esc with
    | true => simp [parseKeyPathAux] at h
    | false =>
      simp only [parseKeyPathAux] at h
      by_cases he : (jsTrim cur).data.isEmpty
      · rw [if_pos he] at h; cases h
      · rw [if_neg he] at h
        cases h
        intro s hs
        rcases List.mem_append.mp hs with hmem | hmem
        · exact hsegs s hmem
        · rcases List.mem_singleton.mp hmem with rfl
          exact ⟨jsTrim_idem cur, by simpa using he⟩
  | cons c rest ih =>
    intro segs cur esc out h hsegs
    cases esc with
    | true => exact ih segs (cur.push c) false out h hsegs
    | false =>
      simp only [parseKeyPathAux] at h
      by_cases hbs : c = '\\'
      · rw [if_pos hbs] at h
        exact ih segs cur true out h hsegs
      · rw [if_neg hbs] at h
        by_cases hcol : c = ':'
        · rw [if_pos hcol] at h
          by_cases he : (jsTrim cur).data.isEmpty
          · rw [if_pos he] at h; cases h
          · rw [if_neg he] at h
            refine ih (segs ++ [jsTrim cur]) "" false out h ?_
            intro s hs
            rcases List.mem_append.mp hs with hmem | hmem
            · exact hsegs s hmem
            · rcases List.mem_singleton.mp hmem with rfl
              exact ⟨jsTrim_idem cur, by simpa using he⟩
        · rw [if_neg hcol] at h
          exact ih segs (cur.push c) false out h hsegs

theorem parseKeyPathAux_openEscape_error :
    ∀ (cs : List Char) (segs : List String) (cur : String) (esc : Bool),
      cs.foldl escStep esc = true →
      ∃ e, parseKeyPathAux cs segs cur esc = .error e := by
  intro cs
  induction cs with
  | nil =>
    intro segs cur esc h
    simp only [List.foldl_nil] at h
    subst h
    exact ⟨_, rfl⟩
  | cons c rest ih =>
    intro segs cur esc h
    simp only [List.foldl_cons] at h
    cases esc with
    | true =>
      rw [show escStep true c = false from rfl] at h
      exact ih segs (cur.push c) false h
    | false =>
      by_cases hbs : c = '\\'
      · rw [show escStep false c = true by simp [escStep, hbs]] at h
        have hrw : parseKeyPathAux (c :: rest) segs cur false =
            parseKeyPathAux rest segs cur true := by
          simp [parseKeyPathAux, hbs]
        rw [hrw]
        exact ih segs cur true h
      · rw [show escStep false c = false by simp [escStep, hbs]] at h
        by_cases hcol : c = ':'
        · by_cases he : (jsTrim cur).data.isEmpty
          · exact ⟨"Key path contains an empty segment.",
              by simp [parseKeyPathAux, hbs, hcol, he]⟩
          · have hrw : parseKeyPathAux (c :: rest) segs cur false =
                parseKeyPathAux rest (segs ++ [jsTrim cur]) "" false := by
              simp [parseKeyPathAux, hbs, hcol, he]
            rw [hrw]
            exact ih _ _ false h
        · have hrw : parseKeyPathAux (c :: rest) segs cur false =
              parseKeyPathAux rest segs (cur.push c) false := by
            simp [parseKeyPathAux, hbs, hcol]
          rw [hrw]
          exact ih _ _ false h

theorem endsInOpenEscape_rejected (kp : String) (h : endsInOpenEscape kp = true) :
    ∃ e, parseKeyPathSegments kp = .error e :=
  parseKeyPathAux_openEscape_error kp.data [] "" false h

/-! ## Helper lemmas: tool logic plumbing -/

theorem setPlistVerifyStep_issued (params : SetPlistValueParams) (executor : CommandExecutor)
    (pbkp : String) (prev : Option String) (idx : Nat) (issued : List (List String)) :
    (setPlistVerifyStep params executor pbkp prev idx issued).2 =
      issued ++ [runPlistBuddyArgs ("Print " ++ pbkp) params.plistPath] := by
  simp only [setPlistVerifyStep]
  cases hx : executor idx (runPlistBuddyArgs ("Print " ++ pbkp) params.plistPath) with
  | error e => rfl
  | ok r =>
    by_cases hs : r.success = false
    · simp [hs]
    · simp [hs]

theorem setPlistVerifyStep_ok (params : SetPlistValueParams) (executor : CommandExecutor)
    (pbkp : String) (prev : Option String) (idx : Nat) (issued : List (List String))
    (h : exceptIsOk (executor idx (runPlistBuddyArgs ("Print " ++ pbkp) params.plistPath)) =
      true) :
    exceptIsOk (setPlistVerifyStep params executor pbkp prev idx issued).1 = true := by
  simp only [setPlistVerifyStep]
  cases hx : executor idx (runPlistBuddyArgs ("Print " ++ pbkp) params.plistPath) with
  | error e => rw [hx] at h; simp [exceptIsOk] at h
  | ok r =>
    by_cases hs : r.success = false
    · simp [hs, exceptIsOk]
    · simp [hs, exceptIsOk]

/-! ## Helper lemmas: environment record folds -/

theorem envFold_fixed (processEnv : List (String × String)) :
    ∀ (names : List String) (m : EnvRecord) (k : String),
      (names.foldl (fun m varName => envSet m varName (List.lookup varName processEnv)) m) k =
        if k ∈ names then some (List.lookup k processEnv) else m k := by
  intro names
  induction names with
  | nil => intro m k; simp
  | cons n ns ih =>
    intro m k
    rw [List.foldl_cons, ih]
    by_cases hin : k ∈ ns
    · simp [hin]
    · by_cases hk : k = n
      · subst hk
        simp [hin, envSet]
      · simp [hin, hk, envSet]

theorem envFold_prefixScan (processEnv : List (String × String)) :
    ∀ (keys : List String) (m : EnvRecord) (k : String),
      (keys.foldl (fun m key =>
        if strStartsWith key "XCODEBUILDMCP_" then envSet m key (List.lookup key processEnv)
        else m) m) k =
        if k ∈ keys ∧ strStartsWith k "XCODEBUILDMCP_" = true
        then some (List.lookup k processEnv) else m k := by
  intro keys
  induction keys with
  | nil => intro m k; simp
  | cons key rest ih =>
    intro m k
    rw [List.foldl_cons, ih]
    by_cases hin : k ∈ rest ∧ strStartsWith k "XCODEBUILDMCP_" = true
    · simp [hin, List.mem_cons, hin.1, hin.2]
    · by_cases hk : k = key
      · subst hk
        by_cases hsw : strStartsWith k "XCODEBUILDMCP_" = true
        · simp [hin, hsw, envSet]
        · have : ¬(k ∈ (k :: rest) ∧ strStartsWith k "XCODEBUILDMCP_" = true) := by
            intro hc; exact hsw hc.2
          simp only [if_neg hin, if_neg this]
          rw [if_neg (by simpa using hsw)]
      · by_cases hsw : strStartsWith key "XCODEBUILDMCP_" = true
        · have : ¬(k ∈ (key :: rest) ∧ strStartsWith k "XCODEBUILDMCP_" = true) := by
            intro hc
            rcases List.mem_cons.mp hc.1 with h1 | h1
            · exact hk h1
            · exact hin ⟨h1, hc.2⟩
          simp only [if_neg hin, if_neg this, if_pos hsw, envSet, if_neg hk]
        · have : ¬(k ∈ (key :: rest) ∧ strStartsWith k "XCODEBUILDMCP_" = true) := by
            intro hc
            rcases List.mem_cons.mp hc.1 with h1 | h1
            · subst h1; exact hsw hc.2
            · exact hin ⟨h1, hc.2⟩
          simp only [if_neg hin, if_neg this, if_neg hsw]

/-! ## Helper lemmas: string-value quoting -/

theorem quoteFold_append (cs : List Char) :
    ∀ acc : String,
      cs.foldl (fun acc c =>
        if c = '\\' then acc ++ "\\\\"
        else if c = '"' then acc ++ "\\\""
        else if c = '\n' then acc ++ "\\n"
        else if c = '\r' then acc ++ "\\r"
        else if c = '\t' then acc ++ "\\t"
        else acc.push c) acc = acc ++ escapeStringValueSpec cs := by
  induction cs with
  | nil => intro acc; rw [List.foldl_nil]; exact (String.append_empty acc).symm
  | cons c rest ih =>
    intro acc
    rw [List.foldl_cons, ih, escapeStringValueSpec, ← String.append_assoc]
    congr 1
    by_cases h1 : c = '\\'
    · simp [h1, escPlistChar]
    · by_cases h2 : c = '"'
      · simp [h1, h2, escPlistChar]
      · by_cases h3 : c = '\n'
        · simp [h1, h2, h3, escPlistChar]
        · by_cases h4 : c = '\r'
          · simp [h1, h2, h3, h4, escPlistChar]
          · by_cases h5 : c = '\t'
            · simp [h1, h2, h3, h4, h5, escPlistChar]
            · simp only [h1, h2, h3, h4, h5, if_false, escPlistChar]
              exact strAppend_push acc c

theorem quotePlistBuddyString_spec (v : String) :
    quotePlistBuddyString v = "\"" ++ escapeStringValueSpec v.data ++ "\"" := by
  unfold quotePlistBuddyString
  rw [show (∀ cs : List Char, cs.foldl (fun acc c =>
        if c = '\\' then acc ++ "\\\\"
        else if c = '"' then acc ++ "\\\""
        else if c = '\n' then acc ++ "\\n"
        else if c = '\r' then acc ++ "\\r"
        else if c = '\t' then acc ++ "\\t"
        else acc.push c) "" = "" ++ escapeStringValueSpec cs)
      from fun cs => quoteFold_append cs ""]
  rw [String.empty_append]

/-- If validation fails, `normalizeValueForType` returns that error. -/
theorem normalizeValueForType_error (v : String) (t : PlistValueType) (e : String)
    (h : validateValueForType v t = some e) : normalizeValueForType v t = .error e := by
  simp [normalizeValueForType, h]

/-! ## Claims -/

/-- C6: parsing the key path `A\:B:C` yields exactly the segments `A:B` and `C`,
and re-escaping them for the editor yields `:A\:B:C`; a key path ending in an
unescaped trailing backslash is rejected with a parse error, and a parsed key
path never contains an empty segment. -/
theorem keypath_escaping_roundtrip :
    parseKeyPathSegments "A\\:B:C" = .ok ["A:B", "C"] ∧
    normalizeKeyPathForPlistBuddy "A\\:B:C" = .ok (["A:B", "C"], ":A\\:B:C") ∧
    (∀ kp : String, endsInOpenEscape kp = true →
      ∃ e, parseKeyPathSegments kp = .error e) ∧
    (∀ (kp : String) (segs : List String), parseKeyPathSegments kp = .ok segs →
      ∀ s ∈ segs, s ≠ "") := by
  refine ⟨by decide, by decide, endsInOpenEscape_rejected, ?_⟩
  intro kp segs h s hs
  have hinv := parseKeyPathAux_ok_inv kp.data [] "" false segs h (by simp) s hs
  intro hcon
  apply hinv.2
  rw [hcon]

/-- C6 witness: the key path `x\` (one unescaped trailing backslash) is
rejected with a parse error. -/
theorem keypath_escaping_roundtrip_witness :
    ∃ e, parseKeyPathSegments "x\\" = .error e :=
  keypath_escaping_roundtrip.2.2.1 "x\\" (by decide)

/-- C10: every segment of a successfully parsed key path is whitespace-trimmed
(trimming it again changes nothing), and a whitespace-only segment is rejected
as empty. -/
theorem keypath_segments_trimmed :
    (∀ (kp : String) (segs : List String), parseKeyPathSegments kp = .ok segs →
      ∀ s ∈ segs, jsTrim s = s) ∧
    parseKeyPathSegments "a: :b" = .error "Key path contains an empty segment." := by
  refine ⟨?_, by decide⟩
  intro kp segs h s hs
  exact (parseKeyPathAux_ok_inv kp.data [] "" false segs h (by simp) s hs).1

/-- C10 witness: the segments parsed from ` A \:B : C ` are trimmed. -/
theorem keypath_segments_trimmed_witness :
    jsTrim "A:B" = "A:B" :=
  keypath_segments_trimmed.1 "A\\:B:C" ["A:B", "C"] (by decide) "A:B" (by decide)

/-- C8: the key set of `getEnvironmentVariables` is exactly the fixed
enumerated list plus every process variable with the `XCODEBUILDMCP_` prefix,
each key mapped to its raw process-environment value. -/
theorem getEnvironmentVariables_key_set (processEnv : List (String × String)) (k : String) :
    getEnvironmentVariables processEnv k =
      if k ∈ relevantVars ∨
          (strStartsWith k "XCODEBUILDMCP_" = true ∧ k ∈ processEnv.map Prod.fst)
      then some (List.lookup k processEnv)
      else none := by
  simp only [getEnvironmentVariables]
  rw [envFold_prefixScan processEnv (processEnv.map Prod.fst) _ k,
    envFold_fixed processEnv relevantVars _ k]
  by_cases h1 : k ∈ processEnv.map Prod.fst ∧ strStartsWith k "XCODEBUILDMCP_" = true
  · rw [if_pos h1, if_pos (Or.inr ⟨h1.2, h1.1⟩)]
  · rw [if_neg h1]
    by_cases h2 : k ∈ relevantVars
    · rw [if_pos h2, if_pos (Or.inl h2)]
    · have hneg : ¬(k ∈ relevantVars ∨
          (strStartsWith k "XCODEBUILDMCP_" = true ∧ k ∈ processEnv.map Prod.fst)) := by
        intro hc
        rcases hc with hc | hc
        · exact h2 hc
        · exact h1 ⟨hc.2, hc.1⟩
      rw [if_neg h2, if_neg hneg]

/-- C1: for the binary name `xcodemake`, `checkBinaryAvailability` performs
exactly the side-effect-free availability check — no executor command and no
install-capable operation — and returns `available := false` with no version
when the binary is absent. -/
theorem checkBinaryAvailability_xcodemake_readonly
    (w : DoctorWorld) (executor : CommandExecutor) :
    checkBinaryAvailability w executor "xcodemake" =
      .ok (⟨w.xcodemakeBinaryAvailable,
        if w.xcodemakeBinaryAvailable then some "Available (version info not available)"
        else none⟩, [.xcodemakeReadOnlyCheck]) ∧
    (∀ tr : BinaryAvailability × List ProbeCall,
      checkBinaryAvailability w executor "xcodemake" = .ok tr →
      (∀ argv, ProbeCall.execCommand argv ∉ tr.2) ∧
      ProbeCall.xcodemakeInstallCapableCheck ∉ tr.2) ∧
    (w.xcodemakeBinaryAvailable = false →
      checkBinaryAvailability w executor "xcodemake" =
        .ok (⟨false, none⟩, [.xcodemakeReadOnlyCheck])) := by
  have hax : ¬(("xcodemake" : String) = "axe") := by decide
  have hbase : checkBinaryAvailability w executor "xcodemake" =
      .ok (⟨w.xcodemakeBinaryAvailable,
        if w.xcodemakeBinaryAvailable then some "Available (version info not available)"
        else none⟩, [.xcodemakeReadOnlyCheck]) := by
    simp [checkBinaryAvailability, hax]
  refine ⟨hbase, ?_, ?_⟩
  · intro tr htr
    rw [hbase] at htr
    injection htr with htr
    subst htr
    constructor
    · intro argv hmem
      simp at hmem
    · intro hmem
      simp at hmem
  · intro h
    rw [hbase, h]
    simp

/-- C1 witness: a world where the xcodemake binary is absent. -/
theorem checkBinaryAvailability_xcodemake_readonly_witness :
    checkBinaryAvailability ⟨none, false, .ok []⟩ alwaysOkExec "xcodemake" =
      .ok (⟨false, none⟩, [.xcodemakeReadOnlyCheck]) :=
  (checkBinaryAvailability_xcodemake_readonly ⟨none, false, .ok []⟩ alwaysOkExec).2.2 rfl

/-- C9: string values are wrapped in double quotes with backslash, double
quote, newline, carriage return and tab replaced by their backslash escapes;
bool values are sent lowercased and trimmed, int and real values trimmed, all
unquoted. -/
theorem plist_value_command_encoding :
    (∀ v : String, normalizeValueForType v .string =
      .ok ⟨v, "\"" ++ escapeStringValueSpec v.data ++ "\""⟩) ∧
    (∀ v : String, validateValueForType v .bool = none →
      normalizeValueForType v .bool = .ok ⟨jsToLower (jsTrim v), jsToLower (jsTrim v)⟩) ∧
    (∀ v : String, validateValueForType v .int = none →
      normalizeValueForType v .int = .ok ⟨jsTrim v, jsTrim v⟩) ∧
    (∀ v : String, validateValueForType v .real = none →
      normalizeValueForType v .real = .ok ⟨jsTrim v, jsTrim v⟩) := by
  refine ⟨?_, ?_, ?_, ?_⟩
  · intro v
    simp [normalizeValueForType, validateValueForType, quotePlistBuddyString_spec]
  · intro v h
    simp [normalizeValueForType, h]
  · intro v h
    simp [normalizeValueForType, h]
  · intro v h
    simp [normalizeValueForType, h]

/-- C9 witness: the bool literal `TRUE` is sent lowercased-trimmed. -/
theorem plist_value_command_encoding_witness :
    normalizeValueForType "TRUE" .bool =
      .ok ⟨jsToLower (jsTrim "TRUE"), jsToLower (jsTrim "TRUE")⟩ :=
  plist_value_command_encoding.2.1 "TRUE" (by decide)

/-- C5: when the plist file does not exist, or the key path fails to parse, or
the value fails its type's literal grammar, the tool returns a structured
error response and executes zero external commands. -/
theorem set_plist_preflight_no_commands
    (params : SetPlistValueParams) (executor : CommandExecutor)
    (existsSync : String → Bool)
    (h : existsSync params.plistPath = false ∨
      (∃ e, normalizeKeyPathForPlistBuddy params.keyPath = .error e) ∨
      (∃ e, validateValueForType params.value params.valueType = some e)) :
    (set_plist_valueLogic params executor existsSync).2 = [] ∧
    ∃ resp, (set_plist_valueLogic params executor existsSync).1 = .ok resp ∧
      resp.isError = true := by
  by_cases hf : existsSync params.plistPath = false
  · have heq : set_plist_valueLogic params executor existsSync =
        (.ok (createErrorResponse "Plist file not found"
          ("No file exists at '" ++ params.plistPath ++ "'.")), []) := by
      simp [set_plist_valueLogic, hf]
    rw [heq]
    exact ⟨rfl, ⟨_, rfl, rfl⟩⟩
  · rcases h with h | h | h
    · exact absurd h hf
    · obtain ⟨e, he⟩ := h
      have heq : set_plist_valueLogic params executor existsSync =
          (.ok (createErrorResponse "Parameter validation failed"
            ("Invalid parameters:
keyPath: " ++ e)), []) := by
        simp [set_plist_valueLogic, hf, he]
      rw [heq]
      exact ⟨rfl, ⟨_, rfl, rfl⟩⟩
    · obtain ⟨e, he⟩ := h
      cases hkp : normalizeKeyPathForPlistBuddy params.keyPath with
      | error e2 =>
        have heq : set_plist_valueLogic params executor existsSync =
            (.ok (createErrorResponse "Parameter validation failed"
              ("Invalid parameters:
keyPath: " ++ e2)), []) := by
          simp [set_plist_valueLogic, hf, hkp]
        rw [heq]
        exact ⟨rfl, ⟨_, rfl, rfl⟩⟩
      | ok kp =>
        have hv := normalizeValueForType_error params.value params.valueType e he
        have heq : set_plist_valueLogic params executor existsSync =
            (.ok (createErrorResponse "Parameter validation failed" e), []) := by
          simp [set_plist_valueLogic, hf, hkp, hv]
        rw [heq]
        exact ⟨rfl, ⟨_, rfl, rfl⟩⟩

/-- C5 witness: a missing plist file produces an error response and no
external command. -/
theorem set_plist_preflight_no_commands_witness :
    (set_plist_valueLogic ⟨"/missing.plist", "K", "v", .string, true⟩ alwaysOkExec
      (fun _ => false)).2 = [] ∧
    ∃ resp, (set_plist_valueLogic ⟨"/missing.plist", "K", "v", .string, true⟩ alwaysOkExec
      (fun _ => false)).1 = .ok resp ∧ resp.isError = true :=
  set_plist_preflight_no_commands _ _ _ (Or.inl rfl)

/-- Once validation has passed, the tool runs the mutation phase. -/
theorem set_plist_valueLogic_validated (params : SetPlistValueParams)
    (executor : CommandExecutor) (existsSync : String → Bool)
    (segs : List String) (pbkp : String) (nv : NormalizedValue)
    (hfs : existsSync params.plistPath = true)
    (hkp : normalizeKeyPathForPlistBuddy params.keyPath = .ok (segs, pbkp))
    (hval : normalizeValueForType params.value params.valueType = .ok nv) :
    set_plist_valueLogic params executor existsSync =
      setPlistMutationPhase params executor pbkp nv := by
  simp [set_plist_valueLogic, hfs, hkp, hval]

/-- When the `Set` fails and the fallback is not taken, the phase stops with a
`set_error:` response after exactly the read and set commands. -/
theorem setPlistMutationPhase_setFail_noAdd (params : SetPlistValueParams)
    (executor : CommandExecutor) (pbkp : String) (nv : NormalizedValue) (sr : CmdResult)
    (hset : executor 1 (runPlistBuddyArgs ("Set " ++ pbkp ++ " " ++ nv.commandValue)
      params.plistPath) = .ok sr)
    (hfail : sr.success = false)
    (hstop : params.createIfMissing = false ∨
      classifySetFailure (getCommandErrorText sr.output sr.error) = .nonMissing) :
    setPlistMutationPhase params executor pbkp nv =
      (.ok (createErrorResponse "Failed to set plist value"
        ("set_error: " ++ getCommandErrorText sr.output sr.error)),
       [runPlistBuddyArgs ("Print " ++ pbkp) params.plistPath,
        runPlistBuddyArgs ("Set " ++ pbkp ++ " " ++ nv.commandValue) params.plistPath]) := by
  simp only [setPlistMutationPhase]
  rw [hset]
  rcases hstop with hci | hcls
  · simp [hfail, hci]
  · by_cases hci : params.createIfMissing = false
    · simp [hfail, hci]
    · simp [hfail, hci, hcls]

/-- When the `Set` fails, `createIfMissing` holds, and the failure is not
classified as non-missing, the phase issues the `Add` command as its third
external command. -/
theorem setPlistMutationPhase_setFail_add (params : SetPlistValueParams)
    (executor : CommandExecutor) (pbkp : String) (nv : NormalizedValue) (sr : CmdResult)
    (hset : executor 1 (runPlistBuddyArgs ("Set " ++ pbkp ++ " " ++ nv.commandValue)
      params.plistPath) = .ok sr)
    (hfail : sr.success = false)
    (hci : params.createIfMissing = true)
    (hcls : classifySetFailure (getCommandErrorText sr.output sr.error) ≠ .nonMissing) :
    ∃ rest, (setPlistMutationPhase params executor pbkp nv).2 =
      [runPlistBuddyArgs ("Print " ++ pbkp) params.plistPath,
       runPlistBuddyArgs ("Set " ++ pbkp ++ " " ++ nv.commandValue) params.plistPath,
       runPlistBuddyArgs ("Add " ++ pbkp ++ " " ++ plistValueTypeName params.valueType ++
         " " ++ nv.commandValue) params.plistPath] ++ rest := by
  simp only [setPlistMutationPhase]
  rw [hset]
  have hci2 : ¬(params.createIfMissing = false) := by simp [hci]
  cases hadd : executor 2 (runPlistBuddyArgs ("Add " ++ pbkp ++ " " ++
      plistValueTypeName params.valueType ++ " " ++ nv.commandValue) params.plistPath) with
  | error e =>
    refine ⟨[], ?_⟩
    simp [hfail, hci2, hcls, hadd]
  | ok ar =>
    by_cases has : ar.success = false
    · refine ⟨[], ?_⟩
      simp [hfail, hci2, hcls, hadd, has]
    · refine ⟨[runPlistBuddyArgs ("Print " ++ pbkp) params.plistPath], ?_⟩
      simp [hfail, hci2, hcls, hadd, has, setPlistVerifyStep_issued]

/-- C2: after a failed `Set`, an `Add` command is attempted if and only if
`createIfMissing` is true and the failure is not classified non-missing; a
non-missing classification or `createIfMissing = false` returns a `set_error:`
error immediately, after only the read and set commands. -/
theorem set_plist_add_fallback_policy
    (params : SetPlistValueParams) (executor : CommandExecutor) (existsSync : String → Bool)
    (segs : List String) (pbkp : String) (nv : NormalizedValue) (sr : CmdResult)
    (hfs : existsSync params.plistPath = true)
    (hkp : normalizeKeyPathForPlistBuddy params.keyPath = .ok (segs, pbkp))
    (hval : normalizeValueForType params.value params.valueType = .ok nv)
    (hset : executor 1 (runPlistBuddyArgs ("Set " ++ pbkp ++ " " ++ nv.commandValue)
      params.plistPath) = .ok sr)
    (hfail : sr.success = false) :
    (params.createIfMissing = false ∨
        classifySetFailure (getCommandErrorText sr.output sr.error) = .nonMissing →
      set_plist_valueLogic params executor existsSync =
        (.ok (createErrorResponse "Failed to set plist value"
          ("set_error: " ++ getCommandErrorText sr.output sr.error)),
         [runPlistBuddyArgs ("Print " ++ pbkp) params.plistPath,
          runPlistBuddyArgs ("Set " ++ pbkp ++ " " ++ nv.commandValue) params.plistPath]) ∧
      strIncludes (createErrorResponse "Failed to set plist value"
        ("set_error: " ++ getCommandErrorText sr.output sr.error)).text "set_error:" = true) ∧
    (params.createIfMissing = true ∧
        classifySetFailure (getCommandErrorText sr.output sr.error) ≠ .nonMissing →
      ∃ rest, (set_plist_valueLogic params executor existsSync).2 =
        [runPlistBuddyArgs ("Print " ++ pbkp) params.plistPath,
         runPlistBuddyArgs ("Set " ++ pbkp ++ " " ++ nv.commandValue) params.plistPath,
         runPlistBuddyArgs ("Add " ++ pbkp ++ " " ++ plistValueTypeName params.valueType ++
           " " ++ nv.commandValue) params.plistPath] ++ rest) := by
  rw [set_plist_valueLogic_validated params executor existsSync segs pbkp nv hfs hkp hval]
  constructor
  · intro hstop
    refine ⟨setPlistMutationPhase_setFail_noAdd params executor pbkp nv sr hset hfail hstop,
      ?_⟩
    apply strIncludes_of_data _ _ (("Failed to set plist value" ++ "\n") : String).data
      ((" " : String) ++ getCommandErrorText sr.output sr.error).data
    show ("Failed to set plist value" ++ "\n" ++
      ("set_error: " ++ getCommandErrorText sr.output sr.error)).data = _
    have hsplit : ("set_error: " : String).data =
        ("set_error:" : String).data ++ (" " : String).data := by decide
    simp [String.data_append, hsplit, List.append_assoc]
  · rintro ⟨hci, hcls⟩
    exact setPlistMutationPhase_setFail_add params executor pbkp nv sr hset hfail hci hcls

/-- C2 witness: the tests' non-missing scenario (`Set :Count 13` fails with a
type-mismatch message) stops immediately with a `set_error:` response. -/
theorem set_plist_add_fallback_policy_witness :
    set_plist_valueLogic ⟨"/tmp/Info.plist", "Count", "13", .int, true⟩ execTypeMismatch
        (fun _ => true) =
      (.ok (createErrorResponse "Failed to set plist value"
        ("set_error: " ++ getCommandErrorText "" (some "Type mismatch while setting value"))),
       [runPlistBuddyArgs ("Print " ++ ":Count") "/tmp/Info.plist",
        runPlistBuddyArgs ("Set " ++ ":Count" ++ " " ++ "13") "/tmp/Info.plist"]) :=
  ((set_plist_add_fallback_policy ⟨"/tmp/Info.plist", "Count", "13", .int, true⟩
    execTypeMismatch (fun _ => true) ["Count"] ":Count" ⟨"13", "13"⟩
    ⟨false, "", some "Type mismatch while setting value"⟩
    rfl (by decide) (by decide) rfl rfl).1 (Or.inr (by decide))).1

/-- The all-successful read/set/verify path of the mutation phase. -/
theorem setPlistMutationPhase_roundtrip (params : SetPlistValueParams)
    (executor : CommandExecutor) (pbkp : String) (nv : NormalizedValue)
    (r0 r1 r2 : CmdResult)
    (h0 : executor 0 (runPlistBuddyArgs ("Print " ++ pbkp) params.plistPath) = .ok r0)
    (h0s : r0.success = true)
    (h1 : executor 1 (runPlistBuddyArgs ("Set " ++ pbkp ++ " " ++ nv.commandValue)
      params.plistPath) = .ok r1)
    (h1s : r1.success = true)
    (h2 : executor 2 (runPlistBuddyArgs ("Print " ++ pbkp) params.plistPath) = .ok r2)
    (h2s : r2.success = true) :
    setPlistMutationPhase params executor pbkp nv =
      (.ok ⟨"Set plist key '" ++ params.keyPath ++ "' in '" ++ params.plistPath ++
        "' to '" ++ normalizeDisplayedValue r2.output params.valueType ++ "'." ++
        (" Previous value: " ++ normalizeDisplayedValue r0.output params.valueType ++ "."),
        false⟩,
       [runPlistBuddyArgs ("Print " ++ pbkp) params.plistPath,
        runPlistBuddyArgs ("Set " ++ pbkp ++ " " ++ nv.commandValue) params.plistPath,
        runPlistBuddyArgs ("Print " ++ pbkp) params.plistPath]) := by
  simp only [setPlistMutationPhase, setPlistVerifyStep]
  rw [h0, h1, h2]
  simp [h0s, h1s, h2s]

/-- C4: when the initial read, the `Set`, and the verification read all
succeed, exactly the three commands read, set, read are issued in order, and
the success text contains the verified new value and the previous value. -/
theorem set_plist_overwrite_roundtrip
    (params : SetPlistValueParams) (executor : CommandExecutor) (existsSync : String → Bool)
    (segs : List String) (pbkp : String) (nv : NormalizedValue) (r0 r1 r2 : CmdResult)
    (hfs : existsSync params.plistPath = true)
    (hkp : normalizeKeyPathForPlistBuddy params.keyPath = .ok (segs, pbkp))
    (hval : normalizeValueForType params.value params.valueType = .ok nv)
    (h0 : executor 0 (runPlistBuddyArgs ("Print " ++ pbkp) params.plistPath) = .ok r0)
    (h0s : r0.success = true)
    (h1 : executor 1 (runPlistBuddyArgs ("Set " ++ pbkp ++ " " ++ nv.commandValue)
      params.plistPath) = .ok r1)
    (h1s : r1.success = true)
    (h2 : executor 2 (runPlistBuddyArgs ("Print " ++ pbkp) params.plistPath) = .ok r2)
    (h2s : r2.success = true) :
    (set_plist_valueLogic params executor existsSync).2 =
      [runPlistBuddyArgs ("Print " ++ pbkp) params.plistPath,
       runPlistBuddyArgs ("Set " ++ pbkp ++ " " ++ nv.commandValue) params.plistPath,
       runPlistBuddyArgs ("Print " ++ pbkp) params.plistPath] ∧
    ∃ resp : ToolResponse,
      (set_plist_valueLogic params executor existsSync).1 = .ok resp ∧
      resp.isError = false ∧
      strIncludes resp.text (normalizeDisplayedValue r2.output params.valueType) = true ∧
      strIncludes resp.text (normalizeDisplayedValue r0.output params.valueType) = true := by
  rw [set_plist_valueLogic_validated params executor existsSync segs pbkp nv hfs hkp hval,
    setPlistMutationPhase_roundtrip params executor pbkp nv r0 r1 r2 h0 h0s h1 h1s h2 h2s]
  refine ⟨rfl, ⟨_, rfl, rfl, ?_, ?_⟩⟩
  · apply strIncludes_of_data _ _
      (("Set plist key '" ++ params.keyPath ++ "' in '" ++ params.plistPath ++ "' to '")
        : String).data
      (("'." ++ (" Previous value: " ++
        normalizeDisplayedValue r0.output params.valueType ++ ".")) : String).data
    show ("Set plist key '" ++ params.keyPath ++ "' in '" ++ params.plistPath ++ "' to '" ++
      normalizeDisplayedValue r2.output params.valueType ++ "'." ++
      (" Previous value: " ++ normalizeDisplayedValue r0.output params.valueType ++ ".")).data
      = _
    simp [String.data_append, List.append_assoc]
  · apply strIncludes_of_data _ _
      (("Set plist key '" ++ params.keyPath ++ "' in '" ++ params.plistPath ++ "' to '" ++
        normalizeDisplayedValue r2.output params.valueType ++ "'." ++ " Previous value: ")
        : String).data
      (("." : String)).data
    show ("Set plist key '" ++ params.keyPath ++ "' in '" ++ params.plistPath ++ "' to '" ++
      normalizeDisplayedValue r2.output params.valueType ++ "'." ++
      (" Previous value: " ++ normalizeDisplayedValue r0.output params.valueType ++ ".")).data
      = _
    simp [String.data_append, List.append_assoc]

/-- C4 witness: the tests' overwrite scenario (`CFBundleDisplayName`,
`Old Name` → `New Name`). -/
theorem set_plist_overwrite_roundtrip_witness :
    (set_plist_valueLogic
      ⟨"/tmp/Info.plist", "CFBundleDisplayName", "New Name", .string, true⟩
      execRoundTrip (fun _ => true)).2 =
      [runPlistBuddyArgs ("Print " ++ ":CFBundleDisplayName") "/tmp/Info.plist",
       runPlistBuddyArgs ("Set " ++ ":CFBundleDisplayName" ++ " " ++ "\"New Name\"")
         "/tmp/Info.plist",
       runPlistBuddyArgs ("Print " ++ ":CFBundleDisplayName") "/tmp/Info.plist"] ∧
    ∃ resp : ToolResponse,
      (set_plist_valueLogic
        ⟨"/tmp/Info.plist", "CFBundleDisplayName", "New Name", .string, true⟩
        execRoundTrip (fun _ => true)).1 = .ok resp ∧
      resp.isError = false ∧
      strIncludes resp.text (normalizeDisplayedValue "New Name" .string) = true ∧
      strIncludes resp.text (normalizeDisplayedValue "Old Name" .string) = true :=
  set_plist_overwrite_roundtrip
    ⟨"/tmp/Info.plist", "CFBundleDisplayName", "New Name", .string, true⟩
    execRoundTrip (fun _ => true) ["CFBundleDisplayName"] ":CFBundleDisplayName"
    ⟨"New Name", "\"New Name\""⟩ ⟨true, "Old Name", none⟩ ⟨true, "", none⟩
    ⟨true, "New Name", none⟩ rfl (by decide) (by decide) rfl rfl rfl rfl rfl rfl

/-- Verification failure after a successful `Set`. -/
theorem setPlistMutationPhase_verifyFail_afterSet (params : SetPlistValueParams)
    (executor : CommandExecutor) (pbkp : String) (nv : NormalizedValue) (r1 rv : CmdResult)
    (h1 : executor 1 (runPlistBuddyArgs ("Set " ++ pbkp ++ " " ++ nv.commandValue)
      params.plistPath) = .ok r1)
    (h1s : r1.success = true)
    (h2 : executor 2 (runPlistBuddyArgs ("Print " ++ pbkp) params.plistPath) = .ok rv)
    (h2f : rv.success = false) :
    setPlistMutationPhase params executor pbkp nv =
      (.ok (createErrorResponse "Failed to verify plist write"
        ("verify_error: " ++ getCommandErrorText rv.output rv.error)),
       [runPlistBuddyArgs ("Print " ++ pbkp) params.plistPath,
        runPlistBuddyArgs ("Set " ++ pbkp ++ " " ++ nv.commandValue) params.plistPath,
        runPlistBuddyArgs ("Print " ++ pbkp) params.plistPath]) := by
  simp only [setPlistMutationPhase, setPlistVerifyStep]
  rw [h1, h2]
  simp [h1s, h2f]

/-- Verification failure after a successful fallback `Add`. -/
theorem setPlistMutationPhase_verifyFail_afterAdd (params : SetPlistValueParams)
    (executor : CommandExecutor) (pbkp : String) (nv : NormalizedValue)
    (sr ar rv : CmdResult)
    (h1 : executor 1 (runPlistBuddyArgs ("Set " ++ pbkp ++ " " ++ nv.commandValue)
      params.plistPath) = .ok sr)
    (h1f : sr.success = false)
    (hci : params.createIfMissing = true)
    (hcls : classifySetFailure (getCommandErrorText sr.output sr.error) ≠ .nonMissing)
    (h2 : executor 2 (runPlistBuddyArgs ("Add " ++ pbkp ++ " " ++
      plistValueTypeName params.valueType ++ " " ++ nv.commandValue) params.plistPath) =
      .ok ar)
    (h2s : ar.success = true)
    (h3 : executor 3 (runPlistBuddyArgs ("Print " ++ pbkp) params.plistPath) = .ok rv)
    (h3f : rv.success = false) :
    setPlistMutationPhase params executor pbkp nv =
      (.ok (createErrorResponse "Failed to verify plist write"
        ("verify_error: " ++ getCommandErrorText rv.output rv.error)),
       [runPlistBuddyArgs ("Print " ++ pbkp) params.plistPath,
        runPlistBuddyArgs ("Set " ++ pbkp ++ " " ++ nv.commandValue) params.plistPath,
        runPlistBuddyArgs ("Add " ++ pbkp ++ " " ++ plistValueTypeName params.valueType ++
          " " ++ nv.commandValue) params.plistPath,
        runPlistBuddyArgs ("Print " ++ pbkp) params.plistPath]) := by
  simp only [setPlistMutationPhase, setPlistVerifyStep]
  rw [h1, h2, h3]
  have hci2 : ¬(params.createIfMissing = false) := by simp [hci]
  simp [h1f, hci2, hcls, h2s, h3f]

/-- The verification-failure response carries the `verify_error:` marker and
its own distinct message. -/
theorem verifyErrorResponse_markers (t : String) :
    strIncludes (createErrorResponse "Failed to verify plist write"
      ("verify_error: " ++ t)).text "verify_error:" = true ∧
    strIncludes (createErrorResponse "Failed to verify plist write"
      ("verify_error: " ++ t)).text "Failed to verify plist write" = true := by
  constructor
  · apply strIncludes_of_data _ _ (("Failed to verify plist write" ++ "\n") : String).data
      ((" " : String) ++ t).data
    show ("Failed to verify plist write" ++ "\n" ++ ("verify_error: " ++ t)).data = _
    have hsplit : ("verify_error: " : String).data =
        ("verify_error:" : String).data ++ (" " : String).data := by decide
    simp [String.data_append, hsplit, List.append_assoc]
  · apply strIncludes_of_data _ _ ([] : List Char)
      (("\n" ++ ("verify_error: " ++ t)) : String).data
    show ("Failed to verify plist write" ++ "\n" ++ ("verify_error: " ++ t)).data = _
    simp [String.data_append, List.append_assoc]

/-- C7: when the `Set` (or the fallback `Add`) succeeds but the verification
read fails, the tool returns an error response carrying the distinct
`verify_error:` marker (under its own "Failed to verify plist write" message,
not `set_error:`'s or `add_error:`'s). -/
theorem set_plist_verify_error_distinct
    (params : SetPlistValueParams) (executor : CommandExecutor) (existsSync : String → Bool)
    (segs : List String) (pbkp : String) (nv : NormalizedValue)
    (hfs : existsSync params.plistPath = true)
    (hkp : normalizeKeyPathForPlistBuddy params.keyPath = .ok (segs, pbkp))
    (hval : normalizeValueForType params.value params.valueType = .ok nv) :
    (∀ r1 rv : CmdResult,
      executor 1 (runPlistBuddyArgs ("Set " ++ pbkp ++ " " ++ nv.commandValue)
        params.plistPath) = .ok r1 → r1.success = true →
      executor 2 (runPlistBuddyArgs ("Print " ++ pbkp) params.plistPath) = .ok rv →
      rv.success = false →
      ∃ resp : ToolResponse,
        (set_plist_valueLogic params executor existsSync).1 = .ok resp ∧
        resp.isError = true ∧
        strIncludes resp.text "verify_error:" = true ∧
        strIncludes resp.text "Failed to verify plist write" = true) ∧
    (∀ sr ar rv : CmdResult,
      executor 1 (runPlistBuddyArgs ("Set " ++ pbkp ++ " " ++ nv.commandValue)
        params.plistPath) = .ok sr → sr.success = false →
      params.createIfMissing = true →
      classifySetFailure (getCommandErrorText sr.output sr.error) ≠ .nonMissing →
      executor 2 (runPlistBuddyArgs ("Add " ++ pbkp ++ " " ++
        plistValueTypeName params.valueType ++ " " ++ nv.commandValue) params.plistPath) =
        .ok ar → ar.success = true →
      executor 3 (runPlistBuddyArgs ("Print " ++ pbkp) params.plistPath) = .ok rv →
      rv.success = false →
      ∃ resp : ToolResponse,
        (set_plist_valueLogic params executor existsSync).1 = .ok resp ∧
        resp.isError = true ∧
        strIncludes resp.text "verify_error:" = true ∧
        strIncludes resp.text "Failed to verify plist write" = true) := by
  constructor
  · intro r1 rv h1 h1s h2 h2f
    rw [set_plist_valueLogic_validated params executor existsSync segs pbkp nv hfs hkp hval,
      setPlistMutationPhase_verifyFail_afterSet params executor pbkp nv r1 rv h1 h1s h2 h2f]
    exact ⟨_, rfl, rfl, (verifyErrorResponse_markers _).1, (verifyErrorResponse_markers _).2⟩
  · intro sr ar rv h1 h1f hci hcls h2 h2s h3 h3f
    rw [set_plist_valueLogic_validated params executor existsSync segs pbkp nv hfs hkp hval,
      setPlistMutationPhase_verifyFail_afterAdd params executor pbkp nv sr ar rv h1 h1f hci
        hcls h2 h2s h3 h3f]
    exact ⟨_, rfl, rfl, (verifyErrorResponse_markers _).1, (verifyErrorResponse_markers _).2⟩

/-- C7 witness: a successful `Set` followed by a failing verification read. -/
theorem set_plist_verify_error_distinct_witness :
    ∃ resp : ToolResponse,
      (set_plist_valueLogic ⟨"/tmp/Info.plist", "K", "v", .string, true⟩ execVerifyFail
        (fun _ => true)).1 = .ok resp ∧
      resp.isError = true ∧
      strIncludes resp.text "verify_error:" = true ∧
      strIncludes resp.text "Failed to verify plist write" = true :=
  (set_plist_verify_error_distinct ⟨"/tmp/Info.plist", "K", "v", .string, true⟩
    execVerifyFail (fun _ => true) ["K"] ":K" ⟨"v", "\"v\""⟩
    rfl (by decide) (by decide)).1 ⟨true, "", none⟩ ⟨false, "", some "read failed"⟩
    rfl rfl rfl rfl

/-- Every branch of `checkBinaryAvailability` catches its executor's
exceptions, so the adapter always returns a value. -/
theorem checkBinaryAvailability_ok (w : DoctorWorld) (executor : CommandExecutor)
    (binary : String) :
    exceptIsOk (checkBinaryAvailability w executor binary) = true := by
  unfold checkBinaryAvailability
  by_cases h1 : binary = "axe"
  · rw [if_pos h1]
    cases w.axeBinaryPath with
    | none => rfl
    | some path => rfl
  · rw [if_neg h1]
    by_cases h2 : binary = "xcodemake"
    · rw [if_pos h2]
      rfl
    · rw [if_neg h2]
      cases executor 0 ["which", binary] with
      | error e => rfl
      | ok which =>
        by_cases hs : which.success = false
        · simp only [if_pos hs]
          rfl
        · simp only [if_neg hs]
          by_cases h3 : binary = "mise"
          · simp only [if_pos h3]
            rfl
          · simp only [if_neg h3]
            rfl

/-- If the executor returns (does not throw) on every call with index at least
one, the mutation phase returns a response. -/
theorem setPlistMutationPhase_ok (params : SetPlistValueParams)
    (executor : CommandExecutor) (pbkp : String) (nv : NormalizedValue)
    (hexec : ∀ i cmd, 1 ≤ i → exceptIsOk (executor i cmd) = true) :
    exceptIsOk (setPlistMutationPhase params executor pbkp nv).1 = true := by
  simp only [setPlistMutationPhase]
  cases hset : executor 1 (runPlistBuddyArgs ("Set " ++ pbkp ++ " " ++ nv.commandValue)
      params.plistPath) with
  | error e =>
    have := hexec 1 (runPlistBuddyArgs ("Set " ++ pbkp ++ " " ++ nv.commandValue)
      params.plistPath) (by omega)
    rw [hset] at this
    simp [exceptIsOk] at this
  | ok sr =>
    by_cases hs : sr.success = true
    · simp only [hs, if_true]
      exact setPlistVerifyStep_ok params executor pbkp _ 2 _ (hexec 2 _ (by omega))
    · simp only [hs, if_false]
      by_cases hci : params.createIfMissing = false
      · simp only [if_pos hci]; rfl
      · simp only [if_neg hci]
        by_cases hcls : classifySetFailure (getCommandErrorText sr.output sr.error) =
            SetFailureClassification.nonMissing
        · simp only [if_pos hcls]; rfl
        · simp only [if_neg hcls]
          cases hadd : executor 2 (runPlistBuddyArgs ("Add " ++ pbkp ++ " " ++
              plistValueTypeName params.valueType ++ " " ++ nv.commandValue)
              params.plistPath) with
          | error e =>
            have := hexec 2 (runPlistBuddyArgs ("Add " ++ pbkp ++ " " ++
              plistValueTypeName params.valueType ++ " " ++ nv.commandValue)
              params.plistPath) (by omega)
            rw [hadd] at this
            simp [exceptIsOk] at this
          | ok ar =>
            by_cases has : ar.success = false
            · simp only [if_pos has]; rfl
            · simp only [if_neg has]
              exact setPlistVerifyStep_ok params executor pbkp _ 3 _ (hexec 3 _ (by omega))

/-- C3 counterexample: with an executor that throws during the `Set` command,
`set_plist_valueLogic` propagates the exception instead of returning a
response. -/
theorem set_plist_can_propagate_executor_exception :
    (set_plist_valueLogic ⟨"/tmp/Info.plist", "K", "v", .string, true⟩ throwingSetExec
      (fun _ => true)).1 = .error "executor exception" := by
  rfl

/-- C3 (amended): the doctor adapters (`checkBinaryAvailability`,
`getXcodeInfo`, `getManifestToolInfo`) never propagate an exception, for every
input and executor behavior; `set_plist_valueLogic` returns a response
whenever the injected executor does not throw on the `Set`, `Add` and
verification calls (call indices at least one) — an executor exception during
the initial best-effort read is caught. -/
theorem tool_boundaries_no_escape
    (params : SetPlistValueParams) (executor bexec xexec : CommandExecutor)
    (existsSync : String → Bool) (w : DoctorWorld) (binary : String)
    (hexec : ∀ i cmd, 1 ≤ i → exceptIsOk (executor i cmd) = true) :
    exceptIsOk (set_plist_valueLogic params executor existsSync).1 = true ∧
    exceptIsOk (checkBinaryAvailability w bexec binary) = true ∧
    ((∃ v p s x, getXcodeInfo xexec = .info v p s x) ∨
      (∃ e, getXcodeInfo xexec = .failure e)) ∧
    ((∃ n m tbw, getManifestToolInfo w = .info n m tbw) ∨
      (∃ e, getManifestToolInfo w = .failure e)) := by
  refine ⟨?_, checkBinaryAvailability_ok w bexec binary, ?_, ?_⟩
  · by_cases hf : existsSync params.plistPath = false
    · simp [set_plist_valueLogic, hf, exceptIsOk]
    · cases hkp : normalizeKeyPathForPlistBuddy params.keyPath with
      | error e => simp [set_plist_valueLogic, hf, hkp, exceptIsOk]
      | ok kp =>
        cases hval : normalizeValueForType params.value params.valueType with
        | error e => simp [set_plist_valueLogic, hf, hkp, hval, exceptIsOk]
        | ok nv =>
          have hphase := setPlistMutationPhase_ok params executor kp.2 nv hexec
          simpa [set_plist_valueLogic, hf, hkp, hval] using hphase
  · cases getXcodeInfo xexec with
    | info v p s x => exact Or.inl ⟨v, p, s, x, rfl⟩
    | failure e => exact Or.inr ⟨e, rfl⟩
  · cases getManifestToolInfo w with
    | info n m tbw => exact Or.inl ⟨n, m, tbw, rfl⟩
    | failure e => exact Or.inr ⟨e, rfl⟩

/-- C3 (amended) witness: a non-throwing executor, a concrete world, and a
concrete parameter set. -/
theorem tool_boundaries_no_escape_witness :
    exceptIsOk (set_plist_valueLogic ⟨"/tmp/Info.plist", "K", "v", .string, true⟩
      alwaysOkExec (fun _ => true)).1 = true ∧
    exceptIsOk (checkBinaryAvailability ⟨none, false, .ok []⟩ alwaysOkExec "mise") = true ∧
    ((∃ v p s x, getXcodeInfo alwaysOkExec = .info v p s x) ∨
      (∃ e, getXcodeInfo alwaysOkExec = .failure e)) ∧
    ((∃ n m tbw, getManifestToolInfo ⟨none, false, .ok []⟩ = .info n m tbw) ∨
      (∃ e, getManifestToolInfo ⟨none, false, .ok []⟩ = .failure e)) :=
  tool_boundaries_no_escape ⟨"/tmp/Info.plist", "K", "v", .string, true⟩ alwaysOkExec
    alwaysOkExec alwaysOkExec (fun _ => true) ⟨none, false, .ok []⟩ "mise"
    (fun _ _ _ => rfl)
